import Mathlib

/-!
Verification development for the osuclient packet codec and connection
state machine.  Python source files are shallowly embedded: byte buffers
become `List Nat` (each entry a byte value), fallible operations return
`Option` or `Except`, and the HTTP transport is an explicit oracle
parameter.
-/

namespace OsuClient

/-- Byte length of the packet header (`constants.HEADER_LEN`). -/
def HEADER_LEN : Nat := 7

/-- Little-endian two-byte encoding of a 16-bit value (`struct.pack "<H"`). -/
def u16le (n : Nat) : List Nat := [n % 256, n / 256 % 256]

/-- Little-endian four-byte encoding of a 32-bit value (`struct.pack "<I"`). -/
def u32le (n : Nat) : List Nat :=
  [n % 256, n / 256 % 256, n / 256 / 256 % 256, n / 256 / 256 / 256 % 256]

/-- Little-endian eight-byte encoding of a 64-bit value (`struct.pack "<Q"`). -/
def u64le (n : Nat) : List Nat :=
  [n % 256, n / 256 % 256, n / 256 / 256 % 256, n / 256 / 256 / 256 % 256,
   n / 256 / 256 / 256 / 256 % 256, n / 256 / 256 / 256 / 256 / 256 % 256,
   n / 256 / 256 / 256 / 256 / 256 / 256 % 256,
   n / 256 / 256 / 256 / 256 / 256 / 256 / 256 % 256]

/-- Value of a little-endian byte list (`struct.unpack` of an unsigned field). -/
def leNat (bs : List Nat) : Nat := bs.foldr (fun b acc => b + 256 * acc) 0

/-- Reinterpret a `w`-bit unsigned value as the signed value `struct.unpack`
of a signed field would produce. -/
def toSigned (w n : Nat) : Int :=
  if n < 2 ^ (w - 1) then (n : Int) else (n : Int) - 2 ^ w

/-- Fuel-driven core of `PacketWriter.write_uleb128`: emit `(value and 0x7f) or 0x80`
while the value is at least `0x80`, then the final 7-bit group. -/
def ulebEncodeAux : Nat → Nat → List Nat
  | 0, v => [v]
  | fuel + 1, v =>
    if v < 0x80 then [v] else (v % 0x80 + 0x80) :: ulebEncodeAux fuel (v / 0x80)

/-- Byte sequence appended by `PacketWriter.write_uleb128` for value `v`. -/
def ulebEncode (v : Nat) : List Nat := ulebEncodeAux v v

/-- Core of `PacketReader.read_uleb128`: walk the remaining bytes, accumulating
7-bit groups, returning the decoded value and the number of bytes consumed.
`none` models the `IndexError` raised when the cursor runs past the buffer. -/
def ulebDecodeAux : List Nat → Nat → Nat → Nat → Option (Nat × Nat)
  | [], _, _, _ => none
  | b :: rest, shift, acc, consumed =>
    let acc' := acc + b % 0x80 * 2 ^ shift
    if b < 0x80 then some (acc', consumed + 1)
    else ulebDecodeAux rest (shift + 7) acc' (consumed + 1)

/-- UTF-8 encoding of a single character (`str.encode`). -/
def utf8EncodeChar (c : Char) : List Nat :=
  let n := c.toNat
  if n < 0x80 then [n]
  else if n < 0x800 then [0xC0 + n / 64, 0x80 + n % 64]
  else if n < 0x10000 then [0xE0 + n / 4096, 0x80 + n / 64 % 64, 0x80 + n % 64]
  else [0xF0 + n / 0x40000, 0x80 + n / 4096 % 64, 0x80 + n / 64 % 64, 0x80 + n % 64]

/-- UTF-8 encoding of a string (`str.encode`). -/
def utf8Encode (s : String) : List Nat := s.data.flatMap utf8EncodeChar

/-- Whether a byte is a UTF-8 continuation byte. -/
def isCont (b : Nat) : Bool := 0x80 ≤ b && b < 0xC0

/-- Strict UTF-8 decoding of a byte list (`bytes.decode`), `none` on any
invalid, overlong, surrogate, out-of-range, or truncated sequence. -/
def utf8DecodeList : List Nat → Option (List Char)
  | [] => some []
  | b :: rest =>
    if b < 0x80 then
      (utf8DecodeList rest).map fun cs => Char.ofNat b :: cs
    else if b < 0xC2 then none
    else if b < 0xE0 then
      match rest with
      | c1 :: rest1 =>
        if isCont c1 then
          (utf8DecodeList rest1).map fun cs =>
            Char.ofNat ((b - 0xC0) * 64 + (c1 - 0x80)) :: cs
        else none
      | [] => none
    else if b < 0xF0 then
      match rest with
      | c1 :: c2 :: rest2 =>
        let cp := (b - 0xE0) * 4096 + (c1 - 0x80) * 64 + (c2 - 0x80)
        if isCont c1 && isCont c2 && decide (0x800 ≤ cp) &&
            !(decide (0xD800 ≤ cp) && decide (cp < 0xE000)) then
          (utf8DecodeList rest2).map fun cs => Char.ofNat cp :: cs
        else none
      | _ => none
    else if b < 0xF5 then
      match rest with
      | c1 :: c2 :: c3 :: rest3 =>
        let cp := (b - 0xF0) * 0x40000 + (c1 - 0x80) * 4096 + (c2 - 0x80) * 64 + (c3 - 0x80)
        if isCont c1 && isCont c2 && isCont c3 && decide (0x10000 ≤ cp) &&
            decide (cp < 0x110000) then
          (utf8DecodeList rest3).map fun cs => Char.ofNat cp :: cs
        else none
      | _ => none
    else none

/-- Strict UTF-8 decoding to a `String` (`bytes.decode`). -/
def utf8Decode (bs : List Nat) : Option String :=
  (utf8DecodeList bs).map fun cs => String.mk cs

/-! ### PacketWriter (src/osuclient/packets/rw.py)

The writer's mutable `bytearray` is embedded as a `List Nat`.  Operations
that can raise in Python (`bytearray.append` with an out-of-range value,
`struct.pack` with an out-of-range value) return `Option`. -/

namespace PacketWriter

/-- Initial writer buffer: the preallocated 7-byte header region. -/
def init : List Nat := List.replicate HEADER_LEN 0

/-- `PacketWriter.write_i8`: `bytearray.append`, valid for 0..255 only. -/
def write_i8 (v : Int) (buf : List Nat) : Option (List Nat) :=
  if 0 ≤ v ∧ v < 256 then some (buf ++ [v.toNat]) else none

/-- `PacketWriter.write_u8`: identical to `write_i8` in the source. -/
def write_u8 (v : Int) (buf : List Nat) : Option (List Nat) :=
  if 0 ≤ v ∧ v < 256 then some (buf ++ [v.toNat]) else none

/-- `PacketWriter.write_i16` (`struct.pack "<h"`). -/
def write_i16 (v : Int) (buf : List Nat) : Option (List Nat) :=
  if -(2 ^ 15) ≤ v ∧ v < 2 ^ 15 then some (buf ++ u16le (v.emod (2 ^ 16)).toNat) else none

/-- `PacketWriter.write_u16` (`struct.pack "<H"`). -/
def write_u16 (v : Int) (buf : List Nat) : Option (List Nat) :=
  if 0 ≤ v ∧ v < 2 ^ 16 then some (buf ++ u16le v.toNat) else none

/-- `PacketWriter.write_i32` (`struct.pack "<i"`). -/
def write_i32 (v : Int) (buf : List Nat) : Option (List Nat) :=
  if -(2 ^ 31) ≤ v ∧ v < 2 ^ 31 then some (buf ++ u32le (v.emod (2 ^ 32)).toNat) else none

/-- `PacketWriter.write_u32` (`struct.pack "<I"`). -/
def write_u32 (v : Int) (buf : List Nat) : Option (List Nat) :=
  if 0 ≤ v ∧ v < 2 ^ 32 then some (buf ++ u32le v.toNat) else none

/-- `PacketWriter.write_i64` (`struct.pack "<q"`). -/
def write_i64 (v : Int) (buf : List Nat) : Option (List Nat) :=
  if -(2 ^ 63) ≤ v ∧ v < 2 ^ 63 then some (buf ++ u64le (v.emod (2 ^ 64)).toNat) else none

/-- `PacketWriter.write_u64` (`struct.pack "<Q"`). -/
def write_u64 (v : Int) (buf : List Nat) : Option (List Nat) :=
  if 0 ≤ v ∧ v < 2 ^ 64 then some (buf ++ u64le v.toNat) else none

/-- `PacketWriter.write_uleb128`: appends the base-128 groups of `value`. -/
def write_uleb128 (v : Nat) (buf : List Nat) : List Nat := buf ++ ulebEncode v

/-- `PacketWriter.write_str`: a single zero byte for the empty string,
otherwise the 0x0B presence marker, then `len(value)` (the *character*
count) as uleb128, then the UTF-8 bytes of the string. -/
def write_str (s : String) (buf : List Nat) : Option (List Nat) :=
  if s = "" then write_i8 0 buf
  else do
    let b1 ← write_i8 0xb buf
    let b2 := write_uleb128 s.length b1
    pure (b2 ++ utf8Encode s)

/-- `PacketWriter.finish`: backfills the 7-byte header
(`struct.pack "<HxI"` of the packet id and `len(buf) - HEADER_LEN`). -/
def finish (packet_id : Nat) (buf : List Nat) : Option (List Nat) :=
  if packet_id < 2 ^ 16 ∧ buf.length - HEADER_LEN < 2 ^ 32 then
    some (u16le packet_id ++ [0] ++ u32le (buf.length - HEADER_LEN) ++ buf.drop HEADER_LEN)
  else none

end PacketWriter

/-! ### PacketReader (src/osuclient/packets/rw.py) -/

/-- `PacketReader`: a cursor over an immutable byte sequence. -/
structure PacketReader where
  buf : List Nat
  pos : Nat
deriving DecidableEq, Repr

namespace PacketReader

/-- `PacketReader.empty`: whether the cursor is at or past the end. -/
def empty (r : PacketReader) : Bool := r.buf.length ≤ r.pos

/-- Consume exactly `n` bytes starting at the cursor, as `struct.unpack`
over the slice `buf[pos:pos+n]` does; `none` models `struct.error` when
fewer than `n` bytes remain. -/
def takeExact (r : PacketReader) (n : Nat) : Option (List Nat × PacketReader) :=
  if r.pos + n ≤ r.buf.length then
    some ((r.buf.drop r.pos).take n, { r with pos := r.pos + n })
  else none

/-- `PacketReader.read_u8`: a single byte (`IndexError` past the end). -/
def read_u8 (r : PacketReader) : Option (Nat × PacketReader) :=
  match r.buf.get? r.pos with
  | some b => some (b, { r with pos := r.pos + 1 })
  | none => none

/-- `PacketReader.read_i8`: identical to `read_u8` in the source (the byte is
returned unsigned). -/
def read_i8 (r : PacketReader) : Option (Nat × PacketReader) :=
  read_u8 r

/-- `PacketReader.read_u16` (`struct.unpack "<H"`). -/
def read_u16 (r : PacketReader) : Option (Nat × PacketReader) :=
  (takeExact r 2).map fun p => (leNat p.1, p.2)

/-- `PacketReader.read_i16` (`struct.unpack "<h"`). -/
def read_i16 (r : PacketReader) : Option (Int × PacketReader) :=
  (takeExact r 2).map fun p => (toSigned 16 (leNat p.1), p.2)

/-- `PacketReader.read_u32` (`struct.unpack "<I"`). -/
def read_u32 (r : PacketReader) : Option (Nat × PacketReader) :=
  (takeExact r 4).map fun p => (leNat p.1, p.2)

/-- `PacketReader.read_i32` (`struct.unpack "<i"`). -/
def read_i32 (r : PacketReader) : Option (Int × PacketReader) :=
  (takeExact r 4).map fun p => (toSigned 32 (leNat p.1), p.2)

/-- `PacketReader.read_u64` (`struct.unpack "<Q"`). -/
def read_u64 (r : PacketReader) : Option (Nat × PacketReader) :=
  (takeExact r 8).map fun p => (leNat p.1, p.2)

/-- `PacketReader.read_i64` (`struct.unpack "<q"`). -/
def read_i64 (r : PacketReader) : Option (Int × PacketReader) :=
  (takeExact r 8).map fun p => (toSigned 64 (leNat p.1), p.2)

/-- `PacketReader.read_f32` (`struct.unpack "<f"`): the four payload bytes
are kept as the raw little-endian 32-bit pattern, the embedding of the
Python float they denote. -/
def read_f32 (r : PacketReader) : Option (Nat × PacketReader) :=
  (takeExact r 4).map fun p => (leNat p.1, p.2)

/-- `PacketReader.read_uleb128`. -/
def read_uleb128 (r : PacketReader) : Option (Nat × PacketReader) :=
  (ulebDecodeAux (r.buf.drop r.pos) 0 0 0).map fun p =>
    (p.1, { r with pos := r.pos + p.2 })

/-- `PacketReader.read_str`: presence marker, uleb128 length, then the slice
`buf[pos:pos+length]` (truncated at the buffer end, as Python slicing is)
decoded as UTF-8; the cursor advances by the declared length. -/
def read_str (r : PacketReader) : Option (String × PacketReader) := do
  let (b, r1) ← read_i8 r
  if b ≠ 0xb then pure ("", r1)
  else do
    let (len, r2) ← read_uleb128 r1
    let bytes := (r2.buf.drop r2.pos).take len
    let s ← utf8Decode bytes
    pure (s, { r2 with pos := r2.pos + len })

/-- `PacketReader.skip`: advance the cursor without interpreting bytes. -/
def skip (r : PacketReader) (length : Nat) : PacketReader :=
  { r with pos := r.pos + length }

/-- `PacketReader.read_header`: u16 packet id, one pad byte, u32 length. -/
def read_header (r : PacketReader) : Option ((Nat × Nat) × PacketReader) := do
  let (t, r1) ← read_u16 r
  let r2 := r1.skip 1
  let (len, r3) ← read_u32 r2
  pure ((t, len), r3)

end PacketReader

/-! ### Packet ids and contexts -/

namespace PacketID

/-- Modelled from the spec: `osuclient/packets/constants.py` is not under
src/ (only its importers are).  Packet ids are 16-bit wire values; the
numeric values below are the protocol's, and no claim depends on them
beyond their being distinct. -/
def OSU_HEARTBEAT : Nat := 4

/-- Modelled from the spec: logout packet id from the missing
`osuclient/packets/constants.py` (zero-payload logout packet). -/
def OSU_LOGOUT : Nat := 2

/-- Modelled from the spec: login-reply packet id from the missing
`osuclient/packets/constants.py`. -/
def SRV_LOGIN_REPLY : Nat := 5

/-- Modelled from the spec: user-logout packet id from the missing
`osuclient/packets/constants.py`. -/
def SRV_USER_LOGOUT : Nat := 12

/-- Modelled from the spec: protocol-version packet id from the missing
`osuclient/packets/constants.py`. -/
def SRV_PROTOCOL_VERSION : Nat := 75

/-- Modelled from the spec: user-presence packet id from the missing
`osuclient/packets/constants.py`. -/
def SRV_USER_PRESENCE : Nat := 83

end PacketID

/-- Modelled from the spec: `PacketContext` (imported by
src/osuclient/client/bancho.py from `osuclient.packets.rw` but not under
src/) is a discrete packet record: the packet id, the payload length from
the header, and a reader positioned at the start of that packet's payload. -/
structure PacketContext where
  id : Nat
  length : Nat
  reader : PacketReader
deriving DecidableEq, Repr

/-- Fuel-driven walk of a response buffer into packet records: read the
7-byte header, slice out `payload_length` bytes for the record's reader,
skip exactly `payload_length` bytes, repeat; `none` models the decode
error on a truncated header. -/
def createFromBuffersAux : Nat → List Nat → Option (List PacketContext)
  | _, [] => some []
  | 0, _ :: _ => none
  | fuel + 1, b0 :: b1 :: _b2 :: b3 :: b4 :: b5 :: b6 :: rest =>
    let t := b0 + 256 * b1
    let len := b3 + 256 * b4 + 65536 * b5 + 16777216 * b6
    (createFromBuffersAux fuel (rest.drop len)).map
      fun ctxs => ⟨t, len, ⟨rest.take len, 0⟩⟩ :: ctxs
  | _ + 1, _ :: _ => none

/-- Modelled from the spec: `PacketContext.create_from_buffers` (not under
src/) iterates the decoded response buffer into discrete packet records,
skipping exactly `payload_length` bytes after each header. -/
def createFromBuffers (buf : List Nat) : Option (List PacketContext) :=
  createFromBuffersAux buf.length buf

/-! ### Player presence (src/osuclient/client/player_state.py) -/

/-- `PlayerPresence` dataclass.  The two float32 fields are embedded as
their raw little-endian bit patterns. -/
structure PlayerPresence where
  id : Int
  name : String
  time_offset : Int
  country : Nat
  bancho_priv : Nat
  lat : Nat
  lon : Nat
  rank : Int
deriving DecidableEq, Repr

/-- `PlayerPresence.from_reader`. -/
def PlayerPresence.from_reader (r : PacketReader) :
    Option (PlayerPresence × PacketReader) := do
  let (id, r) ← r.read_i32
  let (name, r) ← r.read_str
  let (t, r) ← r.read_u8
  let (country, r) ← r.read_u8
  let (priv, r) ← r.read_u8
  let (lat, r) ← r.read_f32
  let (lon, r) ← r.read_f32
  let (rank, r) ← r.read_i32
  pure (⟨id, name, (t : Int) - 24, country, priv, lat, lon, rank⟩, r)

/-! ### Server state (src/osuclient/client/bancho.py, `ServerState`) -/

namespace ServerState

/-- `ServerState.add_presence`: no-op when an entry with the same id exists,
otherwise append. -/
def add_presence (l : List PlayerPresence) (presence : PlayerPresence) :
    List PlayerPresence :=
  if l.any fun p => p.id == presence.id then l else l ++ [presence]

/-- `ServerState.remove_presence`: find the first entry with the given
user id, remove the first list element equal to it (`list.remove`), and
report whether a removal occurred. -/
def remove_presence (l : List PlayerPresence) (user_id : Int) :
    Bool × List PlayerPresence :=
  match l.find? (fun p => p.id == user_id) with
  | some p => (true, l.erase p)
  | none => (false, l)

end ServerState

/-! ### Client data model (src/osuclient/client/bancho.py)

The injected `aiohttp` transport is embedded as an explicit oracle
function mapping a request to its response; exceptions become `Except`
values that carry the Python object state at the raise site. -/

/-- Response of one HTTP POST: status code, optional `cho-token` response
header, and raw body bytes. -/
structure HttpResponse where
  status : Nat
  choToken : Option String
  body : List Nat
deriving DecidableEq, Repr

/-- Oracle for `BanchoSession.send`: url, request body, `osu-token` header. -/
def SessionPost : Type := String → List Nat → String → HttpResponse

/-- Oracle for the handshake POST in `connect`: url and request body. -/
def HandshakePost : Type := String → List Nat → HttpResponse

/-- The exceptions of src/osuclient/client/exceptions.py, plus the decode
errors the codec can raise during dispatch and Python `assert` failures. -/
inductive BanchoError where
  | invalidBanchoToken
  | invalidBanchoResponse (status : Nat)
  | rejectedBanchoToken
  | decodeError
  | assertionError
deriving DecidableEq, Repr

/-- `BanchoSession` dataclass (the `http` field is the injected transport,
passed separately as an oracle). -/
structure BanchoSession where
  token : String
  url : String
deriving DecidableEq, Repr

/-- `BanchoSession.send`: reject an empty or `"no"` stored token before any
request; POST the packet with the `osu-token` header; non-200 status is an
`InvalidBanchoResponse`; a missing, empty or `"no"` `cho-token` response
header is a `RejectedBanchoTokenException`; otherwise adopt the rotated
token and return the response body. -/
def BanchoSession.send (post : SessionPost) (s : BanchoSession)
    (packet : List Nat) :
    Except (BanchoError × BanchoSession) (BanchoSession × List Nat) :=
  if s.token = "no" ∨ s.token = "" then .error (.invalidBanchoToken, s)
  else
    let resp := post s.url packet s.token
    if resp.status ≠ 200 then .error (.invalidBanchoResponse resp.status, s)
    else
      match resp.choToken with
      | some t =>
        if t ≠ "" ∧ t ≠ "no" then .ok ({ s with token := t }, resp.body)
        else .error (.rejectedBanchoToken, s)
      | none => .error (.rejectedBanchoToken, s)

/-- `TargetServer` dataclass. -/
structure TargetServer where
  bancho : String
  avatar : String
  osu : String
deriving DecidableEq, Repr

/-- `OsuVersion` dataclass. -/
structure OsuVersion where
  year : Nat
  month : Nat
  day : Nat
  stream : Option String
deriving DecidableEq, Repr

/-- Two-digit zero-padded decimal rendering (`{:02d}` for a natural). -/
def pad2 (n : Nat) : String := if n < 10 then "0" ++ toString n else toString n

/-- `OsuVersion.version` property: `b{year}{month:02d}{day:02d}{stream}`. -/
def OsuVersion.version (v : OsuVersion) : String :=
  "b" ++ toString v.year ++ pad2 v.month ++ pad2 v.day ++ v.stream.getD ""

/-- `HWIDInfo` dataclass. -/
structure HWIDInfo where
  utc_offset : Int
  path_md5 : String
  adapters : String
  adapters_md5 : String
  uninstall_md5 : String
  disk_md5 : String
deriving DecidableEq, Repr

/-- `BanchoClient` dataclass.  `server_state` is its presence list; the
`http` client-session field is embedded as the flag `httpSet` (the
transport itself is an oracle parameter of each network operation). -/
structure BanchoClient where
  user_id : Int
  username : Option String
  allow_dms : Bool
  session : Option BanchoSession
  queue : List Nat
  protocol_version : Int
  privileges : Nat
  server : Option TargetServer
  version : Option OsuVersion
  hwid : Option HWIDInfo
  presences : List PlayerPresence
  httpSet : Bool
  send_timeout : Nat
deriving DecidableEq, Repr

/-- `BanchoClient.connected` property: a session exists and `user_id > 0`. -/
def BanchoClient.connected (st : BanchoClient) : Bool :=
  st.session.isSome && decide (0 < st.user_id)

/-- A packet handler: the client state and the packet's context, `none`
for an exception raised while reading the payload. -/
def Handler : Type := BanchoClient → PacketContext → Option BanchoClient

/-- `BanchoClient.__packet_login_reply`: set `user_id` from an i32. -/
def packetLoginReply : Handler := fun st ctx =>
  (ctx.reader.read_i32).map fun p => { st with user_id := p.1 }

/-- `BanchoClient.__packet_protocol_ver`: set `protocol_version` from an i32. -/
def packetProtocolVer : Handler := fun st ctx =>
  (ctx.reader.read_i32).map fun p => { st with protocol_version := p.1 }

/-- `BanchoClient.__packet_user_presence`: parse a presence and add it. -/
def packetUserPresence : Handler := fun st ctx =>
  (PlayerPresence.from_reader ctx.reader).map fun p =>
    { st with presences := ServerState.add_presence st.presences p.1 }

/-- `BanchoClient.__packet_user_logout`: read an i32 user id and remove its
presence. -/
def packetUserLogout : Handler := fun st ctx =>
  (ctx.reader.read_i32).map fun p =>
    { st with presences := (ServerState.remove_presence st.presences p.1).2 }

/-- The handler table installed by `BanchoClient.__setup_handlers`. -/
def defaultHandlers : Nat → Option Handler := fun id =>
  if id = PacketID.SRV_LOGIN_REPLY then some packetLoginReply
  else if id = PacketID.SRV_PROTOCOL_VERSION then some packetProtocolVer
  else if id = PacketID.SRV_USER_PRESENCE then some packetUserPresence
  else if id = PacketID.SRV_USER_LOGOUT then some packetUserLogout
  else none

/-- Sequential dispatch over parsed packet records (the `for ctx in ctxs`
loop of `BanchoClient.__handle_response`): a record without a registered
handler is passed over, a registered handler is invoked, and a handler
exception aborts the loop with the state reached so far. -/
def handleCtxs (handlers : Nat → Option Handler) :
    BanchoClient → List PacketContext → Except (BanchoError × BanchoClient) BanchoClient
  | st, [] => .ok st
  | st, ctx :: rest =>
    match handlers ctx.id with
    | none => handleCtxs handlers st rest
    | some h =>
      match h st ctx with
      | none => .error (.decodeError, st)
      | some st' => handleCtxs handlers st' rest

/-- `BanchoClient.__handle_response`: split the response body into packet
records, then dispatch them in buffer order. -/
def handleResponse (handlers : Nat → Option Handler) (st : BanchoClient)
    (body : List Nat) : Except (BanchoError × BanchoClient) BanchoClient :=
  match createFromBuffers body with
  | none => .error (.decodeError, st)
  | some ctxs => handleCtxs handlers st ctxs

/-- `BanchoClient.enqueue`: extend the outbound queue. -/
def BanchoClient.enqueue (st : BanchoClient) (data : List Nat) : BanchoClient :=
  { st with queue := st.queue ++ data }

/-- `BanchoClient.send` (flush): assert a session exists, post the whole
queue through `BanchoSession.send` (which may rotate the stored token),
dispatch the response body, and clear the queue only after all of that
succeeded. -/
def BanchoClient.send (post : SessionPost) (st : BanchoClient) :
    Except (BanchoError × BanchoClient) BanchoClient :=
  match st.session with
  | none => .error (.assertionError, st)
  | some s =>
    match BanchoSession.send post s st.queue with
    | .error (e, s') => .error (e, { st with session := some s' })
    | .ok (s', body) =>
      let st1 := { st with session := some s' }
      match handleResponse defaultHandlers st1 body with
      | .error e => .error e
      | .ok st2 => .ok { st2 with queue := [] }

/-- `builders.logout()`: a zero-payload logout packet. -/
def logoutPacket : List Nat :=
  (PacketWriter.finish PacketID.OSU_LOGOUT PacketWriter.init).getD []

/-- `BanchoClient.logout`: assert connected, enqueue the logout packet,
flush once, and only on a successful flush clear `user_id` and `session`
(and optionally drop the HTTP session); a flush exception propagates. -/
def BanchoClient.logout (post : SessionPost) (close_http : Bool)
    (st : BanchoClient) : Except (BanchoError × BanchoClient) BanchoClient :=
  if st.connected then
    match BanchoClient.send post (st.enqueue logoutPacket) with
    | .error e => .error e
    | .ok st2 =>
      let st3 := { st2 with user_id := 0, session := none }
      .ok (if close_http ∧ st3.httpSet then { st3 with httpSet := false } else st3)
  else .error (.assertionError, st)

/-- Server-argument merge at the top of `connect`: `server or self.server`. -/
def serverMerge (arg : Option TargetServer) (own : Option TargetServer) :
    Option TargetServer :=
  match arg with
  | some sv => some sv
  | none => own

/-- Handshake request body of `connect`: username, password md5, then the
pipe-delimited version / UTC offset / display-city / hardware block / DM
flag line. -/
def handshakeBody (username password_md5 : String) (v : OsuVersion)
    (hw : HWIDInfo) (allow_dms : Bool) : String :=
  String.intercalate "\n"
    [username, password_md5,
     String.intercalate "|"
       [v.version, toString hw.utc_offset, "0",
        String.intercalate ":"
          [hw.path_md5, hw.adapters, hw.adapters_md5, hw.uninstall_md5, hw.disk_md5],
        if allow_dms then "1" else "0"]]

/-- `BanchoClient.connect`: merge the server argument, check the
preconditions, record the attempted username, post the plaintext handshake
body, and on a missing or `"no"` `cho-token` header report `False`;
otherwise dispatch the response body and create a session only when the
dispatched login reply yielded `user_id > 0`.  `md5` is the external hash
function of `osuclient/utils/hashes.py`. -/
def BanchoClient.connect (post : HandshakePost) (md5 : String → String)
    (st : BanchoClient) (username password : String)
    (server : Option TargetServer) (passw_md5 : Bool) :
    Except (BanchoError × BanchoClient) (Bool × BanchoClient) :=
  let st := { st with server := serverMerge server st.server }
  match st.server with
  | none => .error (.assertionError, st)
  | some sv =>
    match st.version, st.hwid with
    | some v, some hw =>
      if st.httpSet then
        let st := { st with username := some username }
        let password_md5 := if passw_md5 then password else md5 password
        let req_body := handshakeBody username password_md5 v hw st.allow_dms
        let resp := post sv.bancho (utf8Encode req_body)
        match resp.choToken with
        | none => .ok (false, st)
        | some tok =>
          if tok = "no" then .ok (false, st)
          else
            match handleResponse defaultHandlers st resp.body with
            | .error e => .error e
            | .ok st2 =>
              let st3 :=
                if 0 < st2.user_id then
                  { st2 with session := some ⟨tok, sv.bancho⟩ }
                else st2
              .ok (st3.connected, st3)
      else .error (.assertionError, st)
    | _, _ => .error (.assertionError, st)

/-! ## Theorems -/

/-! ### uleb128 (claim C7) -/

/-- Value denoted by a little-endian sequence of base-128 groups (the low
seven bits of each byte). -/
def ulebDigits : List Nat → Nat
  | [] => 0
  | b :: rest => b % 128 + 128 * ulebDigits rest

/-- A byte list is the canonical base-128 encoding of `v`: little-endian
group order, continuation bit 0x80 on every byte except the last, no
redundant trailing group. -/
def ULEBCanon : List Nat → Nat → Prop
  | [], _ => False
  | [b], v => b < 128 ∧ b = v
  | b :: c :: t, v => 128 ≤ v ∧ 128 ≤ b ∧ b < 256 ∧ b = v % 128 + 128 ∧
      ULEBCanon (c :: t) (v / 128)

theorem ulebEncodeAux_congr :
    ∀ (f1 f2 v : Nat), v ≤ f1 → v ≤ f2 → ulebEncodeAux f1 v = ulebEncodeAux f2 v := by
  intro f1
  induction f1 with
  | zero =>
    intro f2 v h1 _
    interval_cases v
    cases f2 <;> simp [ulebEncodeAux]
  | succ g1 ih =>
    intro f2 v h1 h2
    cases f2 with
    | zero =>
      interval_cases v
      simp [ulebEncodeAux]
    | succ g2 =>
      by_cases hv : v < 128
      · simp [ulebEncodeAux, hv]
      · simp only [ulebEncodeAux, if_neg hv]
        have hd : v / 128 < v := Nat.div_lt_self (by omega) (by omega)
        rw [ih g2 (v / 128) (by omega) (by omega)]

theorem ulebEncode_lt {v : Nat} (h : v < 128) : ulebEncode v = [v] := by
  cases v with
  | zero => rfl
  | succ k => simp [ulebEncode, ulebEncodeAux, h]

theorem ulebEncode_ge {v : Nat} (h : 128 ≤ v) :
    ulebEncode v = (v % 128 + 128) :: ulebEncode (v / 128) := by
  obtain ⟨m, rfl⟩ : ∃ m, v = m + 1 := ⟨v - 1, by omega⟩
  show ulebEncodeAux (m + 1) (m + 1) = _
  rw [ulebEncodeAux, if_neg (by omega)]
  have hd : (m + 1) / 128 < m + 1 := Nat.div_lt_self (by omega) (by omega)
  rw [ulebEncodeAux_congr m ((m + 1) / 128) ((m + 1) / 128) (by omega) (by omega)]
  rfl

theorem ulebEncode_ne_nil (v : Nat) : ulebEncode v ≠ [] := by
  by_cases h : v < 128
  · rw [ulebEncode_lt h]; simp
  · rw [ulebEncode_ge (by omega)]; simp

theorem ULEBCanon_cons {b : Nat} {l : List Nat} {v : Nat} (hl : l ≠ []) :
    ULEBCanon (b :: l) v ↔
      128 ≤ v ∧ 128 ≤ b ∧ b < 256 ∧ b = v % 128 + 128 ∧ ULEBCanon l (v / 128) := by
  cases l with
  | nil => exact absurd rfl hl
  | cons c t => rfl

theorem ulebEncode_canon : ∀ v : Nat, ULEBCanon (ulebEncode v) v := by
  intro v
  induction v using Nat.strong_induction_on with
  | _ v ih =>
    by_cases h : v < 128
    · rw [ulebEncode_lt h]
      exact ⟨h, rfl⟩
    · rw [ulebEncode_ge (by omega),
        ULEBCanon_cons (ulebEncode_ne_nil (v / 128))]
      refine ⟨by omega, by omega, by omega, rfl, ?_⟩
      exact ih (v / 128) (Nat.div_lt_self (by omega) (by omega))

theorem ULEBCanon_unique : ∀ (l : List Nat) (v : Nat), ULEBCanon l v → l = ulebEncode v := by
  intro l
  induction l with
  | nil => intro v h; exact absurd h (by simp [ULEBCanon])
  | cons b t ih =>
    intro v h
    cases t with
    | nil =>
      obtain ⟨hb, rfl⟩ := h
      rw [ulebEncode_lt hb]
    | cons c t' =>
      rw [ULEBCanon_cons (by simp)] at h
      obtain ⟨hv, _, _, hb, hrest⟩ := h
      rw [ulebEncode_ge hv, ← ih (v / 128) hrest, hb]

theorem ulebDigits_encode : ∀ v : Nat, ulebDigits (ulebEncode v) = v := by
  intro v
  induction v using Nat.strong_induction_on with
  | _ v ih =>
    by_cases h : v < 128
    · rw [ulebEncode_lt h]
      simp [ulebDigits]
      omega
    · rw [ulebEncode_ge (by omega)]
      rw [ulebDigits, ih (v / 128) (Nat.div_lt_self (by omega) (by omega))]
      omega

/-- C7: `write_uleb128` appends the canonical base-128 encoding of `v` in
little-endian group order with continuation bit 0x80 on every byte except
the last (the appended bytes decode back to `v`, satisfy the canonical
shape, and are the unique such sequence), and it maps 0 to `[0x00]`, 127
to `[0x7F]`, 128 to `[0x80, 0x01]`, and 300 to `[0xAC, 0x02]`. -/
theorem C7_write_uleb128_canonical :
    (∀ (v : Nat) (buf : List Nat),
      PacketWriter.write_uleb128 v buf = buf ++ ulebEncode v) ∧
    (∀ v : Nat, ulebDigits (ulebEncode v) = v) ∧
    (∀ v : Nat, ULEBCanon (ulebEncode v) v) ∧
    (∀ (l : List Nat) (v : Nat), ULEBCanon l v → l = ulebEncode v) ∧
    ulebEncode 0 = [0x00] ∧ ulebEncode 127 = [0x7F] ∧
    ulebEncode 128 = [0x80, 0x01] ∧ ulebEncode 300 = [0xAC, 0x02] :=
  ⟨fun _ _ => rfl, ulebDigits_encode, ulebEncode_canon, ULEBCanon_unique,
    by decide, by decide, by decide, by decide⟩

/-- C7 witness: the canonicity component of the theorem applied at the
concrete reference value 300 with its hypothesis discharged by decide. -/
theorem C7_write_uleb128_canonical_witness :
    [0xAC, 0x02] = ulebEncode 300 :=
  C7_write_uleb128_canonical.2.2.2.1 [0xAC, 0x02] 300
    (by simp only [ULEBCanon]; norm_num)

/-! ### Packet framing (claim C6) -/

/-- C6: for every packet type `t` (as a 16-bit wire value) and every buffer
reached by a sequence of writes, `finish t` backfills the 7-byte header in
place: bytes 0-1 decode little-endian to `t`, byte 2 is zero, bytes 3-6
decode little-endian to `total_length - 7`, the payload bytes are
untouched, and total length is preserved; moreover `finish` for packet
type 4 on the empty-payload writer produces exactly
`[04,00,00,00,00,00,00]`. -/
theorem C6_finish_header :
    (∀ (t : Nat) (buf out : List Nat), t < 65536 → HEADER_LEN ≤ buf.length →
      buf.length - HEADER_LEN < 4294967296 →
      PacketWriter.finish t buf = some out →
      out.length = buf.length ∧
      out.take 2 = u16le t ∧
      leNat (out.take 2) = t ∧
      out.get? 2 = some 0 ∧
      leNat ((out.drop 3).take 4) = buf.length - HEADER_LEN ∧
      out.drop HEADER_LEN = buf.drop HEADER_LEN) ∧
    PacketWriter.finish 4 PacketWriter.init = some [4, 0, 0, 0, 0, 0, 0] := by
  constructor
  · intro t buf out ht hlen hl hfin
    simp only [HEADER_LEN] at hlen hl ⊢
    rw [PacketWriter.finish, if_pos ⟨ht, by simpa [HEADER_LEN] using hl⟩] at hfin
    obtain rfl : u16le t ++ [0] ++ u32le (buf.length - HEADER_LEN) ++ buf.drop HEADER_LEN = out :=
      Option.some_injective _ hfin
    simp only [u16le, u32le, HEADER_LEN, List.cons_append, List.nil_append,
      List.append_assoc]
    refine ⟨?_, ?_, ?_, ?_, ?_, ?_⟩
    · simp only [List.length_cons, List.length_append, List.length_drop]
      omega
    · rfl
    · simp only [List.take_succ_cons, List.take_zero, leNat, List.foldr]
      omega
    · rfl
    · simp only [List.drop_succ_cons, List.drop_zero, List.take_succ_cons,
        List.take_zero, leNat, List.foldr]
      omega
    · rfl
  · decide

/-- C6 witness: the universal component applied to packet type 4 and the
empty-payload writer buffer, hypotheses discharged by decide. -/
theorem C6_finish_header_witness :
    ([4, 0, 0, 0, 0, 0, 0] : List Nat).length = PacketWriter.init.length ∧
    ([4, 0, 0, 0, 0, 0, 0] : List Nat).take 2 = u16le 4 ∧
    leNat (([4, 0, 0, 0, 0, 0, 0] : List Nat).take 2) = 4 ∧
    ([4, 0, 0, 0, 0, 0, 0] : List Nat).get? 2 = some 0 ∧
    leNat ((([4, 0, 0, 0, 0, 0, 0] : List Nat).drop 3).take 4) =
      PacketWriter.init.length - HEADER_LEN ∧
    ([4, 0, 0, 0, 0, 0, 0] : List Nat).drop HEADER_LEN = PacketWriter.init.drop HEADER_LEN :=
  C6_finish_header.1 4 PacketWriter.init [4, 0, 0, 0, 0, 0, 0]
    (by decide) (by decide) (by decide) (by decide)

/-! ### Presence registry (claim C9) -/

/-- The registry invariant: no two entries share a `user_id`. -/
def idsNodup (l : List PlayerPresence) : Prop :=
  (l.map PlayerPresence.id).Nodup

theorem add_presence_mem {l : List PlayerPresence} {pr : PlayerPresence}
    (h : ∃ p ∈ l, p.id = pr.id) :
    ServerState.add_presence l pr = l := by
  rw [ServerState.add_presence, if_pos]
  rw [List.any_eq_true]
  obtain ⟨p, hp, hid⟩ := h
  exact ⟨p, hp, by simpa using hid⟩

theorem add_presence_not_mem {l : List PlayerPresence} {pr : PlayerPresence}
    (h : ∀ p ∈ l, p.id ≠ pr.id) :
    ServerState.add_presence l pr = l ++ [pr] := by
  rw [ServerState.add_presence, if_neg]
  simp only [List.any_eq_true, beq_iff_eq, not_exists, not_and]
  exact h

theorem add_presence_nodup {l : List PlayerPresence} {pr : PlayerPresence}
    (h : idsNodup l) : idsNodup (ServerState.add_presence l pr) := by
  by_cases hmem : ∃ p ∈ l, p.id = pr.id
  · rw [add_presence_mem hmem]; exact h
  · push_neg at hmem
    rw [add_presence_not_mem hmem]
    rw [idsNodup, List.map_append, List.map_singleton]
    rw [List.nodup_append]
    refine ⟨h, List.nodup_singleton _, ?_⟩
    intro x hx hx'
    simp only [List.mem_singleton] at hx'
    obtain ⟨p, hp, rfl⟩ := List.mem_map.mp hx
    exact hmem p hp (hx' ▸ rfl)

theorem remove_presence_absent {l : List PlayerPresence} {uid : Int}
    (h : ∀ p ∈ l, p.id ≠ uid) :
    ServerState.remove_presence l uid = (false, l) := by
  rw [ServerState.remove_presence]
  have : l.find? (fun p => p.id == uid) = none := by
    rw [List.find?_eq_none]
    intro p hp
    simpa using h p hp
  rw [this]

theorem remove_presence_present :
    ∀ (l : List PlayerPresence) (uid : Int), idsNodup l → (∃ p ∈ l, p.id = uid) →
      (ServerState.remove_presence l uid).1 = true ∧
      ∃ l1 p l2, l = l1 ++ p :: l2 ∧ p.id = uid ∧ (∀ q ∈ l1, q.id ≠ uid) ∧
        (ServerState.remove_presence l uid).2 = l1 ++ l2 := by
  intro l
  induction l with
  | nil => intro uid _ h; simp at h
  | cons a t ih =>
    intro uid hnd hex
    by_cases ha : a.id = uid
    · have hfind : (a :: t).find? (fun p => p.id == uid) = some a := by
        rw [List.find?_cons_of_pos]
        simpa using ha
      refine ⟨?_, [], a, t, rfl, ha, by simp, ?_⟩
      · rw [ServerState.remove_presence, hfind]
      · rw [ServerState.remove_presence, hfind]
        simp [List.erase_cons_head]
    · have hfind : (a :: t).find? (fun p => p.id == uid) = t.find? (fun p => p.id == uid) := by
        rw [List.find?_cons_of_neg]
        simpa using ha
      have hext : ∃ p ∈ t, p.id = uid := by
        obtain ⟨p, hp, hid⟩ := hex
        rcases List.mem_cons.mp hp with rfl | hpt
        · exact absurd hid ha
        · exact ⟨p, hpt, hid⟩
      have hndt : idsNodup t := by
        rw [idsNodup, List.map_cons, List.nodup_cons] at hnd
        exact hnd.2
      obtain ⟨hfst, l1, p, l2, rfl, hpid, hl1, hsnd⟩ := ih uid hndt hext
      rw [ServerState.remove_presence] at hfst hsnd
      rw [ServerState.remove_presence, hfind]
      cases hf : (l1 ++ p :: l2).find? (fun p => p.id == uid) with
      | none => rw [hf] at hfst; simp at hfst
      | some q =>
        rw [hf] at hsnd
        have haq : (a == q) = false := by
          have hq := List.find?_some hf
          simp only [beq_iff_eq] at hq
          simp only [beq_eq_false_iff_ne, ne_eq]
          intro heq
          exact ha (heq ▸ hq)
        refine ⟨rfl, a :: l1, p, l2, rfl, hpid, ?_, ?_⟩
        · intro q' hq'
          rcases List.mem_cons.mp hq' with rfl | hq't
          · exact ha
          · exact hl1 q' hq't
        · show (a :: (l1 ++ p :: l2)).erase q = a :: l1 ++ l2
          have haq' : ¬(a == q) = true := by simp only [haq]; exact fun h => nomatch h
          have hsnd' : (l1 ++ p :: l2).erase q = l1 ++ l2 := hsnd
          rw [List.erase_cons_tail haq', hsnd']
          rfl

theorem remove_presence_nodup {l : List PlayerPresence} {uid : Int}
    (h : idsNodup l) : idsNodup (ServerState.remove_presence l uid).2 := by
  rw [ServerState.remove_presence]
  cases hf : l.find? (fun p => p.id == uid) with
  | none => exact h
  | some p =>
    have hsub : List.Sublist ((l.erase p).map PlayerPresence.id) (l.map PlayerPresence.id) :=
      (List.erase_sublist p l).map PlayerPresence.id
    exact h.sublist hsub

/-- C9: the presence registry never holds two entries with the same
`user_id`, and every operation preserves this: `add_presence` of an
already-present id is a no-op, otherwise it appends; `remove_presence` of
an absent id returns false leaving the list unchanged, and of a present id
removes exactly that one entry and returns true. -/
theorem C9_presence_registry :
    (∀ (l : List PlayerPresence) (pr : PlayerPresence),
      (∃ p ∈ l, p.id = pr.id) → ServerState.add_presence l pr = l) ∧
    (∀ (l : List PlayerPresence) (pr : PlayerPresence),
      (∀ p ∈ l, p.id ≠ pr.id) → ServerState.add_presence l pr = l ++ [pr]) ∧
    (∀ (l : List PlayerPresence) (pr : PlayerPresence),
      idsNodup l → idsNodup (ServerState.add_presence l pr)) ∧
    (∀ (l : List PlayerPresence) (uid : Int),
      (∀ p ∈ l, p.id ≠ uid) → ServerState.remove_presence l uid = (false, l)) ∧
    (∀ (l : List PlayerPresence) (uid : Int), idsNodup l → (∃ p ∈ l, p.id = uid) →
      (ServerState.remove_presence l uid).1 = true ∧
      ∃ l1 p l2, l = l1 ++ p :: l2 ∧ p.id = uid ∧ (∀ q ∈ l1, q.id ≠ uid) ∧
        (ServerState.remove_presence l uid).2 = l1 ++ l2) ∧
    (∀ (l : List PlayerPresence) (uid : Int),
      idsNodup l → idsNodup (ServerState.remove_presence l uid).2) :=
  ⟨fun _ _ h => add_presence_mem h,
   fun _ _ h => add_presence_not_mem h,
   fun _ _ h => add_presence_nodup h,
   fun _ _ h => remove_presence_absent h,
   remove_presence_present,
   fun _ _ h => remove_presence_nodup h⟩

/-- A concrete presence record used by witnesses. -/
def presenceA : PlayerPresence :=
  ⟨7, "peppy", -2, 1, 4, 0, 0, 1⟩

/-- A second concrete presence record used by witnesses. -/
def presenceB : PlayerPresence :=
  ⟨9, "cookiezi", 3, 2, 1, 0, 0, 2⟩

/-- C9 witness: removal of the present id 9 from the two-element registry,
hypotheses discharged by decide. -/
theorem C9_presence_registry_witness :
    (ServerState.remove_presence [presenceA, presenceB] 9).1 = true ∧
    ∃ l1 p l2, [presenceA, presenceB] = l1 ++ p :: l2 ∧ p.id = 9 ∧
      (∀ q ∈ l1, q.id ≠ 9) ∧
      (ServerState.remove_presence [presenceA, presenceB] 9).2 = l1 ++ l2 :=
  C9_presence_registry.2.2.2.2.1 [presenceA, presenceB] 9
    (by rw [idsNodup]; decide) ⟨presenceB, by decide, by decide⟩

/-! ### String codec round-trip failure (claim C1) -/

/-- C1: the claimed writer/reader round-trip fails on the code for strings
with multi-byte UTF-8 characters: `write_str` writes the *character* count
(here 1) as the uleb128 length while appending 2 UTF-8 bytes, so `read_str`
on the written bytes decodes only the first byte of the character and
fails; and `write_i8` of the in-range i8 value -1 raises
(`bytearray.append` accepts 0..255 only), so the i8 pair cannot round-trip
negative values either. -/
theorem C1_string_roundtrip_bug :
    ("é".length = 1 ∧ (utf8Encode "é").length = 2) ∧
    PacketWriter.write_str "é" [] = some [0x0b, 0x01, 0xC3, 0xA9] ∧
    PacketReader.read_str ⟨[0x0b, 0x01, 0xC3, 0xA9], 0⟩ = none ∧
    PacketWriter.write_i8 (-1) [] = none := by
  decide

/-! ### read_str behavior (claim C3) -/

/-- C3 counterexample: a buffer whose declared string length 5 exceeds the
2 bytes remaining after the marker and length; the claim says `read_str`
must fail with a decode error here, but it succeeds, returning the
truncated string and advancing the cursor past the end. -/
theorem C3_read_str_overlength_counterexample :
    PacketReader.read_str ⟨[0x0b, 5, 97, 98], 0⟩ =
      some ("ab", ⟨[0x0b, 5, 97, 98], 7⟩) ∧
    PacketReader.read_uleb128 ⟨[0x0b, 5, 97, 98], 1⟩ =
      some (5, ⟨[0x0b, 5, 97, 98], 2⟩) ∧
    ([0x0b, 5, 97, 98] : List Nat).length - 2 < 5 := by
  decide

/-- C3 amended: at any cursor position, `read_str` returns the empty string
and consumes exactly one byte when the first byte is not 0x0B (and fails
when no byte remains); otherwise it reads a uleb128 length `L` and decodes
the slice of at most `L` bytes truncated at the buffer end, failing iff
those bytes are not valid UTF-8, and advances the cursor by exactly `L`;
when `L` does not exceed the remaining buffer the slice holds exactly `L`
bytes, and when it does the slice is silently truncated to the remaining
bytes. -/
theorem C3_read_str_amended :
    (∀ (buf : List Nat) (pos : Nat) (b : Nat),
      buf.get? pos = some b → b ≠ 0x0b →
      PacketReader.read_str ⟨buf, pos⟩ = some ("", ⟨buf, pos + 1⟩)) ∧
    (∀ (buf : List Nat) (pos : Nat),
      buf.get? pos = none → PacketReader.read_str ⟨buf, pos⟩ = none) ∧
    (∀ (buf : List Nat) (pos len pos2 : Nat),
      buf.get? pos = some 0x0b →
      PacketReader.read_uleb128 ⟨buf, pos + 1⟩ = some (len, ⟨buf, pos2⟩) →
      PacketReader.read_str ⟨buf, pos⟩ =
        (utf8Decode ((buf.drop pos2).take len)).map fun s => (s, ⟨buf, pos2 + len⟩)) ∧
    (∀ (buf : List Nat) (pos2 len : Nat), pos2 + len ≤ buf.length →
      ((buf.drop pos2).take len).length = len) ∧
    (∀ (buf : List Nat) (pos2 len : Nat), buf.length < pos2 + len →
      ((buf.drop pos2).take len).length = buf.length - pos2) := by
  refine ⟨?_, ?_, ?_, ?_, ?_⟩
  · intro buf pos b hget hb
    rw [PacketReader.read_str, PacketReader.read_i8, PacketReader.read_u8]
    simp only [hget]
    simp [hb]
  · intro buf pos hget
    rw [PacketReader.read_str, PacketReader.read_i8, PacketReader.read_u8, hget]
    rfl
  · intro buf pos len pos2 hget hul
    have hi8 : PacketReader.read_i8 ⟨buf, pos⟩ = some (0x0b, ⟨buf, pos + 1⟩) := by
      rw [PacketReader.read_i8, PacketReader.read_u8, hget]
    cases hdec : utf8Decode ((buf.drop pos2).take len) with
    | none => simp [PacketReader.read_str, hi8, hul, hdec]
    | some s => simp [PacketReader.read_str, hi8, hul, hdec]
  · intro buf pos2 len h
    simp only [List.length_take, List.length_drop]
    omega
  · intro buf pos2 len h
    simp only [List.length_take, List.length_drop]
    omega

/-- C3 witness: the marked-string component of the amended theorem applied
to a concrete well-formed buffer, hypotheses discharged by decide. -/
theorem C3_read_str_amended_witness :
    PacketReader.read_str ⟨[0x0b, 2, 104, 105], 0⟩ =
      (utf8Decode ((([0x0b, 2, 104, 105] : List Nat).drop 2).take 2)).map
        fun s => (s, ⟨[0x0b, 2, 104, 105], 2 + 2⟩) :=
  C3_read_str_amended.2.2.1 [0x0b, 2, 104, 105] 0 2 2 (by decide) (by decide)

/-! ### Session token guard (claim C10) -/

/-- C10: `BanchoSession.send` with an empty or `"no"` stored token fails
with `InvalidBanchoTokenException` with the session unchanged, and does so
for every transport oracle, i.e. before any HTTP request is performed. -/
theorem C10_invalid_token_guard (post : SessionPost) (s : BanchoSession)
    (packet : List Nat) (h : s.token = "" ∨ s.token = "no") :
    BanchoSession.send post s packet = .error (.invalidBanchoToken, s) := by
  rw [BanchoSession.send, if_pos (Or.symm h)]

/-- A transport oracle that would accept the request, used to witness that
the token guard fires before the request is made. -/
def C10post : SessionPost := fun _ _ _ => ⟨200, some "fresh", []⟩

/-- C10 witness: the theorem applied to a session holding the empty token
and a concrete accepting transport. -/
theorem C10_invalid_token_guard_witness :
    BanchoSession.send C10post ⟨"", "https://c.ppy.sh/"⟩ [1, 2, 3] =
      .error (.invalidBanchoToken, ⟨"", "https://c.ppy.sh/"⟩) :=
  C10_invalid_token_guard C10post ⟨"", "https://c.ppy.sh/"⟩ [1, 2, 3] (Or.inl rfl)

/-! ### Logout (claim C2) -/

/-- A transport oracle whose flush always fails with HTTP status 500. -/
def C2post : SessionPost := fun _ _ _ => ⟨500, none, []⟩

/-- A concrete connected client used for the C2 counterexample. -/
def C2state : BanchoClient :=
  { user_id := 1000, username := some "alice", allow_dms := true,
    session := some ⟨"token", "https://c.ppy.sh/"⟩, queue := [],
    protocol_version := 19, privileges := 0, server := none, version := none,
    hwid := none, presences := [], httpSet := true, send_timeout := 5 }

/-- C2 counterexample: when the final flush fails (HTTP 500 here), `logout`
propagates the exception and does *not* clear `user_id` or `session` — the
client still reports connected — contradicting the claim that the state is
cleared regardless of flush outcome. -/
theorem C2_logout_counterexample :
    BanchoClient.logout C2post false C2state =
      .error (.invalidBanchoResponse 500, { C2state with queue := logoutPacket }) ∧
    ({ C2state with queue := logoutPacket } : BanchoClient).connected = true ∧
    ({ C2state with queue := logoutPacket } : BanchoClient).user_id = 1000 ∧
    ({ C2state with queue := logoutPacket } : BanchoClient).session =
      some ⟨"token", "https://c.ppy.sh/"⟩ :=
  ⟨rfl, rfl, rfl, rfl⟩

/-- C2 amended: for a connected client, `logout` enqueues the zero-payload
logout packet and performs one final flush; when that flush succeeds,
`user_id` is cleared to 0 and `session` to null so `connected` is false,
but when the flush fails the exception propagates and `logout` leaves the
state exactly as the failed flush left it (no clearing), so the client can
remain connected. -/
theorem C2_logout_amended (post : SessionPost) (close_http : Bool)
    (st : BanchoClient) (h : st.connected = true) :
    (∀ st', BanchoClient.logout post close_http st = .ok st' →
      st'.user_id = 0 ∧ st'.session = none ∧ st'.connected = false) ∧
    (∀ e st', BanchoClient.logout post close_http st = .error (e, st') →
      BanchoClient.send post (st.enqueue logoutPacket) = .error (e, st')) := by
  have hlog : BanchoClient.logout post close_http st =
      match BanchoClient.send post (st.enqueue logoutPacket) with
      | .error e => .error e
      | .ok st2 =>
        .ok (if close_http ∧
              ({ st2 with user_id := 0, session := none } : BanchoClient).httpSet
            then { ({ st2 with user_id := 0, session := none } : BanchoClient) with
                    httpSet := false }
            else { st2 with user_id := 0, session := none }) := by
    rw [BanchoClient.logout, if_pos h]
  constructor
  · intro st' heq
    rw [hlog] at heq
    cases hsend : BanchoClient.send post (st.enqueue logoutPacket) with
    | error e => rw [hsend] at heq; exact nomatch heq
    | ok st2 =>
      rw [hsend] at heq
      cases heq
      split
      · exact ⟨rfl, rfl, rfl⟩
      · exact ⟨rfl, rfl, rfl⟩
  · intro e' st' heq
    rw [hlog] at heq
    cases hsend : BanchoClient.send post (st.enqueue logoutPacket) with
    | error e => rw [hsend] at heq; cases heq; rfl
    | ok st2 => rw [hsend] at heq; exact nomatch heq

/-- A transport oracle whose flush succeeds, rotating the token. -/
def C2postOk : SessionPost := fun _ _ _ => ⟨200, some "rotated", []⟩

/-- C2 witness: the amended theorem applied to the concrete connected
client with a succeeding flush, hypotheses discharged by decide. -/
theorem C2_logout_amended_witness :
    ({ C2state with user_id := 0, session := none } : BanchoClient).user_id = 0 ∧
    ({ C2state with user_id := 0, session := none } : BanchoClient).session = none ∧
    ({ C2state with user_id := 0, session := none } : BanchoClient).connected = false :=
  (C2_logout_amended C2postOk false C2state (by decide)).1
    { C2state with user_id := 0, session := none } rfl

/-! ### Handshake failure (claim C4) -/

/-- A handshake oracle that answers without any `cho-token` header. -/
def C4post : HandshakePost := fun _ _ => ⟨200, none, []⟩

/-- The identity in place of the external md5 hash, for concrete runs. -/
def C4md5 : String → String := fun s => s

/-- A concrete ready-to-connect client used for the C4 counterexample. -/
def C4state : BanchoClient :=
  { user_id := 0, username := none, allow_dms := true, session := none,
    queue := [], protocol_version := 19, privileges := 0,
    server := some ⟨"https://c.x/", "https://a.x/", "https://osu.x/"⟩,
    version := some ⟨2022, 1, 1, none⟩,
    hwid := some ⟨0, "p", "a", "am", "u", "d"⟩,
    presences := [], httpSet := true, send_timeout := 5 }

/-- C4 counterexample: on a handshake response without the credential
header, `connect` returns false without raising, but it has already
mutated `username` (set before the request is sent), contradicting the
claim that no client field changes. -/
theorem C4_connect_counterexample :
    BanchoClient.connect C4post C4md5 C4state "alice" "pw" none false =
      .ok (false, { C4state with username := some "alice" }) ∧
    ({ C4state with username := some "alice" } : BanchoClient).username ≠
      C4state.username :=
  ⟨rfl, by decide⟩

/-- C4 amended: when the handshake response carries no credential header or
the reject sentinel `"no"`, `connect` returns false without raising, and
the only fields it has mutated are `username` (set to the attempted
username) and `server` (set to the merged server argument); in particular
`user_id`, `session` and the outbound queue are unchanged. -/
theorem C4_connect_amended (post : HandshakePost) (md5 : String → String)
    (st : BanchoClient) (username password : String)
    (srv : Option TargetServer) (pmd5 : Bool) (sv : TargetServer)
    (hsv : serverMerge srv st.server = some sv)
    (v : OsuVersion) (hv : st.version = some v)
    (hw : HWIDInfo) (hhw : st.hwid = some hw)
    (hht : st.httpSet = true)
    (htok : ∀ url body, (post url body).choToken = none ∨
      (post url body).choToken = some "no") :
    BanchoClient.connect post md5 st username password srv pmd5 =
      .ok (false, { st with server := serverMerge srv st.server,
                            username := some username }) ∧
    ({ st with server := serverMerge srv st.server,
               username := some username } : BanchoClient).user_id = st.user_id ∧
    ({ st with server := serverMerge srv st.server,
               username := some username } : BanchoClient).session = st.session ∧
    ({ st with server := serverMerge srv st.server,
               username := some username } : BanchoClient).queue = st.queue := by
  refine ⟨?_, rfl, rfl, rfl⟩
  rw [BanchoClient.connect]
  simp only [hsv, hv, hhw, hht]
  rcases htok sv.bancho
      (utf8Encode (handshakeBody username (if pmd5 then password else md5 password)
        v hw st.allow_dms)) with h | h <;>
    simp only [h, if_true, if_pos rfl]

/-- C4 witness: the amended theorem applied to the concrete client and the
credential-less handshake oracle, hypotheses discharged by decide. -/
theorem C4_connect_amended_witness :
    BanchoClient.connect C4post C4md5 C4state "bob" "pw" none false =
      .ok (false, { C4state with server := serverMerge none C4state.server,
                                 username := some "bob" }) ∧
    ({ C4state with server := serverMerge none C4state.server,
                    username := some "bob" } : BanchoClient).user_id = C4state.user_id ∧
    ({ C4state with server := serverMerge none C4state.server,
                    username := some "bob" } : BanchoClient).session = C4state.session ∧
    ({ C4state with server := serverMerge none C4state.server,
                    username := some "bob" } : BanchoClient).queue = C4state.queue :=
  C4_connect_amended C4post C4md5 C4state "bob" "pw" none false
    ⟨"https://c.x/", "https://a.x/", "https://osu.x/"⟩ rfl
    ⟨2022, 1, 1, none⟩ rfl ⟨0, "p", "a", "am", "u", "d"⟩ rfl rfl
    (fun _ _ => Or.inl rfl)

/-! ### Flush and the outbound queue (claim C8) -/

theorem packetLoginReply_queue :
    ∀ st ctx st', packetLoginReply st ctx = some st' → st'.queue = st.queue := by
  intro st ctx st' h
  cases hr : ctx.reader.read_i32 with
  | none => simp [packetLoginReply, hr] at h
  | some p =>
    simp only [packetLoginReply, hr, Option.map_some', Option.some.injEq] at h
    rw [← h]

theorem packetProtocolVer_queue :
    ∀ st ctx st', packetProtocolVer st ctx = some st' → st'.queue = st.queue := by
  intro st ctx st' h
  cases hr : ctx.reader.read_i32 with
  | none => simp [packetProtocolVer, hr] at h
  | some p =>
    simp only [packetProtocolVer, hr, Option.map_some', Option.some.injEq] at h
    rw [← h]

theorem packetUserPresence_queue :
    ∀ st ctx st', packetUserPresence st ctx = some st' → st'.queue = st.queue := by
  intro st ctx st' h
  cases hr : PlayerPresence.from_reader ctx.reader with
  | none => simp [packetUserPresence, hr] at h
  | some p =>
    simp only [packetUserPresence, hr, Option.map_some', Option.some.injEq] at h
    rw [← h]

theorem packetUserLogout_queue :
    ∀ st ctx st', packetUserLogout st ctx = some st' → st'.queue = st.queue := by
  intro st ctx st' h
  cases hr : ctx.reader.read_i32 with
  | none => simp [packetUserLogout, hr] at h
  | some p =>
    simp only [packetUserLogout, hr, Option.map_some', Option.some.injEq] at h
    rw [← h]

theorem defaultHandlers_queue {id : Nat} {hdl : Handler}
    (hh : defaultHandlers id = some hdl) :
    ∀ st ctx st', hdl st ctx = some st' → st'.queue = st.queue := by
  simp only [defaultHandlers] at hh
  split_ifs at hh <;> cases hh
  · exact packetLoginReply_queue
  · exact packetProtocolVer_queue
  · exact packetUserPresence_queue
  · exact packetUserLogout_queue

theorem handleCtxs_cons_none {handlers : Nat → Option Handler} {st : BanchoClient}
    {ctx : PacketContext} {rest : List PacketContext}
    (hh : handlers ctx.id = none) :
    handleCtxs handlers st (ctx :: rest) = handleCtxs handlers st rest := by
  simp only [handleCtxs, hh]

theorem handleCtxs_cons_fail {handlers : Nat → Option Handler} {st : BanchoClient}
    {ctx : PacketContext} {rest : List PacketContext} {hdl : Handler}
    (hh : handlers ctx.id = some hdl) (happ : hdl st ctx = none) :
    handleCtxs handlers st (ctx :: rest) = .error (.decodeError, st) := by
  simp only [handleCtxs, hh, happ]

theorem handleCtxs_cons_step {handlers : Nat → Option Handler} {st st1 : BanchoClient}
    {ctx : PacketContext} {rest : List PacketContext} {hdl : Handler}
    (hh : handlers ctx.id = some hdl) (happ : hdl st ctx = some st1) :
    handleCtxs handlers st (ctx :: rest) = handleCtxs handlers st1 rest := by
  simp only [handleCtxs, hh, happ]

theorem handleCtxs_queue :
    ∀ (ctxs : List PacketContext) (st : BanchoClient),
      (∀ st', handleCtxs defaultHandlers st ctxs = .ok st' → st'.queue = st.queue) ∧
      (∀ e st', handleCtxs defaultHandlers st ctxs = .error (e, st') →
        st'.queue = st.queue) := by
  intro ctxs
  induction ctxs with
  | nil =>
    intro st
    constructor
    · intro st' h
      cases h
      rfl
    · intro e st' h
      exact nomatch h
  | cons ctx rest ih =>
    intro st
    constructor
    · intro st' h
      cases hh : defaultHandlers ctx.id with
      | none =>
        rw [handleCtxs_cons_none hh] at h
        exact (ih st).1 st' h
      | some hdl =>
        cases happ : hdl st ctx with
        | none => rw [handleCtxs_cons_fail hh happ] at h; exact nomatch h
        | some st1 =>
          rw [handleCtxs_cons_step hh happ] at h
          rw [(ih st1).1 st' h]
          exact defaultHandlers_queue hh st ctx st1 happ
    · intro e st' h
      cases hh : defaultHandlers ctx.id with
      | none =>
        rw [handleCtxs_cons_none hh] at h
        exact (ih st).2 e st' h
      | some hdl =>
        cases happ : hdl st ctx with
        | none =>
          rw [handleCtxs_cons_fail hh happ] at h
          cases h
          rfl
        | some st1 =>
          rw [handleCtxs_cons_step hh happ] at h
          rw [(ih st1).2 e st' h]
          exact defaultHandlers_queue hh st ctx st1 happ

theorem handleResponse_queue (st : BanchoClient) (body : List Nat) :
    (∀ st', handleResponse defaultHandlers st body = .ok st' → st'.queue = st.queue) ∧
    (∀ e st', handleResponse defaultHandlers st body = .error (e, st') →
      st'.queue = st.queue) := by
  rw [handleResponse]
  cases createFromBuffers body with
  | none =>
    constructor
    · intro st' h
      exact nomatch h
    · intro e st' h
      cases h
      rfl
  | some ctxs => exact handleCtxs_queue ctxs st

theorem send_session_error {post : SessionPost} {st : BanchoClient}
    {s s' : BanchoSession} {e : BanchoError} (hs : st.session = some s)
    (hbs : BanchoSession.send post s st.queue = .error (e, s')) :
    BanchoClient.send post st = .error (e, { st with session := some s' }) := by
  simp only [BanchoClient.send, hs, hbs]

theorem send_session_ok {post : SessionPost} {st : BanchoClient}
    {s s' : BanchoSession} {body : List Nat} (hs : st.session = some s)
    (hbs : BanchoSession.send post s st.queue = .ok (s', body)) :
    BanchoClient.send post st =
      (match handleResponse defaultHandlers { st with session := some s' } body with
       | .error e => .error e
       | .ok st2 => .ok { st2 with queue := [] }) := by
  simp only [BanchoClient.send, hs, hbs]

/-- C8: the outbound queue is cleared by `send` only after the whole flush
succeeds: on any failure (invalid token, non-success HTTP status, missing
or reject-sentinel credential header, or a dispatch error) `send` raises
and the state it leaves holds exactly the bytes the queue held at the
call, so a subsequent flush resends them; on success the queue is empty;
and on a non-success HTTP status the whole client state — the session
credential included — is left unchanged. -/
theorem C8_send_clears_only_on_success (post : SessionPost) (st : BanchoClient)
    (s : BanchoSession) (hs : st.session = some s) :
    (∀ e st', BanchoClient.send post st = .error (e, st') →
      st'.queue = st.queue) ∧
    (∀ st', BanchoClient.send post st = .ok st' → st'.queue = []) ∧
    ((post s.url st.queue s.token).status ≠ 200 → ¬(s.token = "no" ∨ s.token = "") →
      BanchoClient.send post st =
        .error (.invalidBanchoResponse (post s.url st.queue s.token).status, st)) := by
  refine ⟨?_, ?_, ?_⟩
  · intro e st' h
    cases hbs : BanchoSession.send post s st.queue with
    | error p =>
      obtain ⟨e0, s0⟩ := p
      rw [send_session_error hs hbs] at h
      cases h
      rfl
    | ok p =>
      obtain ⟨s0, body⟩ := p
      rw [send_session_ok hs hbs] at h
      cases hhr : handleResponse defaultHandlers { st with session := some s0 } body with
      | error q =>
        obtain ⟨e1, st1⟩ := q
        simp only [hhr] at h
        cases h
        exact (handleResponse_queue { st with session := some s0 } body).2 e st' hhr
      | ok st2 =>
        simp only [hhr] at h
        exact nomatch h
  · intro st' h
    cases hbs : BanchoSession.send post s st.queue with
    | error p =>
      obtain ⟨e0, s0⟩ := p
      rw [send_session_error hs hbs] at h
      exact nomatch h
    | ok p =>
      obtain ⟨s0, body⟩ := p
      rw [send_session_ok hs hbs] at h
      cases hhr : handleResponse defaultHandlers { st with session := some s0 } body with
      | error q =>
        simp only [hhr] at h
        exact nomatch h
      | ok st2 =>
        simp only [hhr] at h
        cases h
        rfl
  · intro hstat htok
    have hst : ({ st with session := some s } : BanchoClient) = st := by
      rw [← hs]
    have hbs : BanchoSession.send post s st.queue =
        .error (.invalidBanchoResponse (post s.url st.queue s.token).status, s) := by
      simp only [BanchoSession.send, if_neg htok, if_pos hstat]
    rw [send_session_error hs hbs, hst]

/-- A transport oracle that always fails with HTTP status 503. -/
def C8post : SessionPost := fun _ _ _ => ⟨503, some "t", []⟩

/-- A concrete connected client with a non-empty outbound queue. -/
def C8state : BanchoClient :=
  { C2state with queue := [1, 2, 3], session := some ⟨"tok", "https://c.ppy.sh/"⟩ }

/-- C8 witness: the non-success-status component applied at a concrete
client and failing transport, hypotheses discharged by decide. -/
theorem C8_send_clears_only_on_success_witness :
    BanchoClient.send C8post C8state =
      .error (.invalidBanchoResponse
        (C8post (⟨"tok", "https://c.ppy.sh/"⟩ : BanchoSession).url C8state.queue
          (⟨"tok", "https://c.ppy.sh/"⟩ : BanchoSession).token).status, C8state) :=
  (C8_send_clears_only_on_success C8post C8state ⟨"tok", "https://c.ppy.sh/"⟩ rfl).2.2
    (by decide) (by decide)

/-! ### Dispatcher synchronization (claim C5) -/

/-- A well-formed framed packet: 7-byte header (type, pad, payload length)
followed by the payload, exactly as `PacketWriter.finish` lays it out. -/
def mkPacket (t : Nat) (payload : List Nat) : List Nat :=
  u16le t ++ [0] ++ u32le payload.length ++ payload

theorem createFromBuffersAux_congr :
    ∀ (f1 f2 : Nat) (b : List Nat), b.length ≤ f1 → b.length ≤ f2 →
      createFromBuffersAux f1 b = createFromBuffersAux f2 b := by
  intro f1
  induction f1 with
  | zero =>
    intro f2 b h1 h2
    cases b with
    | nil => cases f2 <;> rfl
    | cons b0 rest0 => simp at h1
  | succ g1 ih =>
    intro f2 b h1 h2
    cases b with
    | nil => cases f2 <;> rfl
    | cons b0 rest0 =>
      cases f2 with
      | zero => simp at h2
      | succ g2 =>
        rcases rest0 with _ | ⟨b1, _ | ⟨b2, _ | ⟨b3, _ | ⟨b4, _ | ⟨b5, _ | ⟨b6, rest⟩⟩⟩⟩⟩⟩
        · rfl
        · rfl
        · rfl
        · rfl
        · rfl
        · rfl
        · simp only [createFromBuffersAux]
          rw [ih g2 (rest.drop (b3 + 256 * b4 + 65536 * b5 + 16777216 * b6))
            (by simp only [List.length_drop]; simp only [List.length_cons] at h1; omega)
            (by simp only [List.length_drop]; simp only [List.length_cons] at h2; omega)]

theorem createFromBuffers_cons (t : Nat) (p rest : List Nat)
    (ht : t < 65536) (hp : p.length < 4294967296) :
    createFromBuffers (mkPacket t p ++ rest) =
      (createFromBuffers rest).map
        fun ctxs => (⟨t, p.length, ⟨p, 0⟩⟩ : PacketContext) :: ctxs := by
  rw [createFromBuffers, createFromBuffers]
  have hshape : mkPacket t p ++ rest =
      t % 256 :: (t / 256 % 256) :: 0 :: (p.length % 256) :: (p.length / 256 % 256) ::
      (p.length / 256 / 256 % 256) :: (p.length / 256 / 256 / 256 % 256) :: (p ++ rest) := by
    simp [mkPacket, u16le, u32le]
  rw [hshape]
  have hl : (t % 256 :: (t / 256 % 256) :: 0 :: (p.length % 256) :: (p.length / 256 % 256) ::
      (p.length / 256 / 256 % 256) :: (p.length / 256 / 256 / 256 % 256) :: (p ++ rest)).length =
      (6 + p.length + rest.length) + 1 := by
    simp only [List.length_cons, List.length_append]
    omega
  rw [hl]
  simp only [createFromBuffersAux]
  have hid : t % 256 + 256 * (t / 256 % 256) = t := by omega
  have hln : p.length % 256 + 256 * (p.length / 256 % 256) +
      65536 * (p.length / 256 / 256 % 256) +
      16777216 * (p.length / 256 / 256 / 256 % 256) = p.length := by omega
  rw [hid, hln, List.take_left, List.drop_left]
  rw [createFromBuffersAux_congr (6 + p.length + rest.length) rest.length rest
    (by omega) (le_refl _)]

/-- C5: walking a buffer of two concatenated well-formed packets yields both
records at the right boundaries (the dispatcher skips exactly
`payload_length` bytes for the first packet, which has no registered
handler), and dispatching invokes the registered handler — if any — of the
second packet on a reader positioned exactly at its payload. -/
theorem C5_dispatcher_sync (t1 t2 : Nat) (p1 p2 : List Nat)
    (handlers : Nat → Option Handler) (st : BanchoClient)
    (h1 : t1 < 65536) (h2 : t2 < 65536)
    (hp1 : p1.length < 4294967296) (hp2 : p2.length < 4294967296)
    (hno : handlers t1 = none) :
    createFromBuffers (mkPacket t1 p1 ++ mkPacket t2 p2) =
      some [⟨t1, p1.length, ⟨p1, 0⟩⟩, ⟨t2, p2.length, ⟨p2, 0⟩⟩] ∧
    handleResponse handlers st (mkPacket t1 p1 ++ mkPacket t2 p2) =
      (match handlers t2 with
       | none => .ok st
       | some hdl =>
         match hdl st ⟨t2, p2.length, ⟨p2, 0⟩⟩ with
         | some st' => .ok st'
         | none => .error (.decodeError, st)) := by
  have hparse : createFromBuffers (mkPacket t1 p1 ++ mkPacket t2 p2) =
      some [⟨t1, p1.length, ⟨p1, 0⟩⟩, ⟨t2, p2.length, ⟨p2, 0⟩⟩] := by
    rw [createFromBuffers_cons t1 p1 (mkPacket t2 p2) h1 hp1]
    have h2' : createFromBuffers (mkPacket t2 p2) =
        some [⟨t2, p2.length, ⟨p2, 0⟩⟩] := by
      have hc := createFromBuffers_cons t2 p2 [] h2 hp2
      rw [List.append_nil] at hc
      rw [hc]
      rfl
    rw [h2']
    rfl
  refine ⟨hparse, ?_⟩
  rw [handleResponse, hparse]
  show handleCtxs handlers st
      [⟨t1, p1.length, ⟨p1, 0⟩⟩, ⟨t2, p2.length, ⟨p2, 0⟩⟩] = _
  rw [handleCtxs_cons_none hno]
  cases hh2 : handlers t2 with
  | none =>
    rw [handleCtxs_cons_none hh2]
    rfl
  | some hdl =>
    cases happ : hdl st ⟨t2, p2.length, ⟨p2, 0⟩⟩ with
    | none =>
      rw [handleCtxs_cons_fail hh2 happ]
      simp only [happ]
    | some st2 =>
      rw [handleCtxs_cons_step hh2 happ]
      simp only [happ]
      rfl

/-- A concrete client knowing one presence (user id 9), used by the C5
witness. -/
def C5state : BanchoClient := { C2state with presences := [presenceB] }

/-- C5 witness: the theorem applied to a concrete buffer whose first packet
(type 99) has no registered handler and whose second is a user-logout
packet for user 9; the second packet is parsed correctly and its default
handler removes the presence. -/
theorem C5_dispatcher_sync_witness :
    createFromBuffers (mkPacket 99 [7] ++ mkPacket 12 [9, 0, 0, 0]) =
      some [⟨99, 1, ⟨[7], 0⟩⟩, ⟨12, 4, ⟨[9, 0, 0, 0], 0⟩⟩] ∧
    handleResponse defaultHandlers C5state (mkPacket 99 [7] ++ mkPacket 12 [9, 0, 0, 0]) =
      .ok { C5state with presences := [] } :=
  C5_dispatcher_sync 99 12 [7] [9, 0, 0, 0] defaultHandlers C5state
    (by decide) (by decide) (by decide) (by decide) rfl

end OsuClient
